import Mathlib

/-!
Verification of `src/llm/circuit_breaker.py`, `src/llm/fallback.py` and
`src/llm/llm_factory.py` from the healthcare-aigent repository, via a
shallow embedding in Lean 4.

Conventions of the embedding:
* Python `time.time()` values are rationals (`ℚ`); every operation that
  reads the clock takes the current time as an explicit argument.
* The injected availability-check function is modelled per call as an
  `Option Bool`: `some b` means the check returned the boolean `b`,
  `none` means the check raised an exception.
* The breaker's `_state` attribute is a Python string ("closed", "open",
  "half_open"), and is embedded as a `String` exactly as in the source.
* `self._cache` is a dict keyed by `self.name`; since a breaker only ever
  reads and writes the entry for its own name, it is embedded as an
  `Option (Bool × ℚ)`.
-/

namespace HealthcareAigent

/-- Module constants of `circuit_breaker.py`. -/
def MAX_FAILURES : ℕ := 5

def RESET_TIMEOUT : ℚ := 5

def CACHE_TIMEOUT : ℚ := 5

/-- `CircuitBreakerConfig` dataclass. -/
structure CircuitBreakerConfig where
  failure_threshold : ℕ := 3
  reset_timeout : ℚ := 60
  half_open_timeout : ℚ := 5
  success_threshold : ℕ := 1
deriving Repr, DecidableEq

/-- Mutable attributes of a `CircuitBreaker` instance (its `name` and
`check_function` are modelled outside the state: the name only keys the
per-instance cache, and the check function is supplied per call). -/
structure CircuitBreaker where
  config : CircuitBreakerConfig
  failures : ℕ
  last_failure_time : Option ℚ
  state : String
  success_count : ℕ
  last_success_time : ℚ
  cache : Option (Bool × ℚ)
deriving Repr, DecidableEq

namespace CircuitBreaker

/-- `CircuitBreaker.__init__`. -/
def init (config : Option CircuitBreakerConfig) : CircuitBreaker where
  config := config.getD {}
  failures := 0
  last_failure_time := none
  state := "closed"
  success_count := 0
  last_success_time := 0
  cache := none

/-- `CircuitBreaker.record_failure` at clock time `t`. -/
def record_failure (b : CircuitBreaker) (t : ℚ) : CircuitBreaker :=
  let b := { b with
    failures := b.failures + 1
    last_failure_time := some t
    success_count := 0 }
  if b.state = "closed" ∧ b.config.failure_threshold ≤ b.failures then
    { b with state := "open" }
  else if b.state = "half_open" then
    { b with state := "open" }
  else
    b

/-- `CircuitBreaker.record_success` at clock time `t`. -/
def record_success (b : CircuitBreaker) (t : ℚ) : CircuitBreaker :=
  let b := { b with
    last_success_time := t
    success_count := b.success_count + 1
    failures := 0 }
  if b.state = "half_open" ∧ b.config.success_threshold ≤ b.success_count then
    { b with state := "closed", success_count := 0 }
  else
    b

/-- `CircuitBreaker.reset`. -/
def reset (b : CircuitBreaker) : CircuitBreaker :=
  { b with state := "closed", failures := 0, success_count := 0, cache := none }

/-- Result of one `is_available` call: the returned boolean, the new
instance state, and whether the injected check function was invoked. -/
structure AvailResult where
  result : Bool
  post : CircuitBreaker
  checkRan : Bool
deriving Repr, DecidableEq

/-- Tail of `is_available`: lines 97-111, performing the actual check.
`check = some r` models the check function returning `r`; `check = none`
models it raising an exception. -/
def availCheck (b : CircuitBreaker) (t : ℚ) (check : Option Bool) : AvailResult :=
  match check with
  | some r =>
      let b1 := { b with cache := some (r, t) }
      let b2 := if r then b1.record_success t else b1.record_failure t
      ⟨r, b2, true⟩
  | none =>
      ⟨false, b.record_failure t, true⟩

/-- Middle of `is_available`: lines 91-95, the half-open gate. -/
def availHalfOpen (b : CircuitBreaker) (t : ℚ) (check : Option Bool) : AvailResult :=
  if b.state = "half_open" then
    match b.last_failure_time with
    | some lf =>
        if t - lf < b.config.half_open_timeout then ⟨false, b, false⟩
        else availCheck b t check
    | none => availCheck b t check
  else
    availCheck b t check

/-- Body of `is_available` after the cache lookup: lines 81-111. -/
def availOpen (b : CircuitBreaker) (t : ℚ) (check : Option Bool) : AvailResult :=
  if b.state = "open" then
    match b.last_failure_time with
    | some lf =>
        if t - lf < b.config.reset_timeout then
          ⟨false, b, false⟩
        else
          availHalfOpen { b with state := "half_open", last_failure_time := some t } t check
    | none =>
        availHalfOpen { b with state := "half_open", last_failure_time := some t } t check
  else
    availHalfOpen b t check

/-- `CircuitBreaker.is_available` at clock time `t` with the check
function behaving as `check` on this call. -/
def is_available (b : CircuitBreaker) (t : ℚ) (check : Option Bool) : AvailResult :=
  match b.cache with
  | some (r, ts) =>
      if t - ts < CACHE_TIMEOUT then ⟨r, b, false⟩ else availOpen b t check
  | none => availOpen b t check

/-- One public operation on a breaker, with its clock time. -/
inductive Op where
  | avail (t : ℚ) (check : Option Bool)
  | fail (t : ℚ)
  | succ (t : ℚ)
  | reset
deriving Repr, DecidableEq

/-- Apply one public operation to the instance state. -/
def applyOp (b : CircuitBreaker) : Op → CircuitBreaker
  | .avail t check => (b.is_available t check).post
  | .fail t => b.record_failure t
  | .succ t => b.record_success t
  | .reset => b.reset

/-- Run a sequence of public operations from a given state. -/
def runOps (b : CircuitBreaker) (ops : List Op) : CircuitBreaker :=
  ops.foldl applyOp b

end CircuitBreaker

/-!
Embedding of `src/llm/fallback.py`.

An LLM operation is modelled as a function from the attempt index (the
`attempt` loop variable of `execute_with_retry`, starting at 0) to an
`Except` outcome: `.ok r` is a normal return, `.error e` a raised
exception.  `time.sleep(delay)` is recorded in a list of slept delays.
-/

/-- `RetryStrategy.__init__` fields. -/
structure RetryStrategy where
  max_retries : ℕ := 3
  initial_delay : ℚ := 1
  max_delay : ℚ := 10
  backoff_factor : ℚ := 2
deriving Repr, DecidableEq

namespace RetryStrategy

/-- Outcome of `execute_with_retry`: the returned value or raised
exception, the number of times the operation was invoked, and the list of
delays slept between attempts, in order. -/
structure RetryOutcome (ε α : Type) where
  result : Except ε α
  calls : ℕ
  sleeps : List ℚ
deriving Repr

/-- The retry loop of `execute_with_retry` (lines 98-114 of
`fallback.py`): `delay` is the current delay variable, `M` the
`max_delay`, `f` the `backoff_factor`, `attempt` the loop counter and
`fuel` the number of attempts still allowed after this one
(`max_retries - attempt`). -/
def retryGo (op : ℕ → Except ε α) (delay M f : ℚ) :
    ℕ → ℕ → RetryOutcome ε α
  | attempt, fuel =>
    match op attempt with
    | .ok a => ⟨.ok a, 1, []⟩
    | .error e =>
      match fuel with
      | 0 => ⟨.error e, 1, []⟩
      | fuel + 1 =>
          let r := retryGo op (min (delay * f) M) M f (attempt + 1) fuel
          ⟨r.result, r.calls + 1, delay :: r.sleeps⟩

/-- `RetryStrategy.execute_with_retry`. -/
def execute_with_retry (s : RetryStrategy) (op : ℕ → Except ε α) :
    RetryOutcome ε α :=
  retryGo op s.initial_delay s.max_delay s.backoff_factor 0 s.max_retries

end RetryStrategy

/-- `FallbackLLM` instance state; `α` is the type of wrapped adapters
(`BaseLLM` objects, compared by identity).  `_last_successful_llm` is an
`Option α` because `_call` assigns the optional `_fallback_llm` to it. -/
structure FallbackLLM (α : Type) where
  primary_llm : α
  fallback_llm : Option α
  retry_strategy : RetryStrategy
  last_successful_llm : Option α
deriving Repr, DecidableEq

namespace FallbackLLM

/-- `FallbackLLM.__init__`. -/
def init (primary : α) (fallback : Option α) (strategy : Option RetryStrategy) :
    FallbackLLM α where
  primary_llm := primary
  fallback_llm := fallback
  retry_strategy := strategy.getD {}
  last_successful_llm := some primary

/-- Outcome of one `FallbackLLM._call`: result or raised exception, the
new instance state, and how many times the primary and the secondary
adapters were each invoked. -/
structure CallOutcome (α : Type) where
  result : Except String String
  post : FallbackLLM α
  primaryCalls : ℕ
  secondaryCalls : ℕ
deriving Repr

/-- The `try_fallback_llm` closure of `FallbackLLM._call` (lines
164-167): delegates to the fallback adapter if present, otherwise raises
`ValueError("No fallback LLM available")` on every attempt. -/
def tryFallbackOp (fb : FallbackLLM α) (sOp : ℕ → Except String String) :
    ℕ → Except String String := fun k =>
  match fb.fallback_llm with
  | some _ => sOp k
  | none => .error "No fallback LLM available"

/-- `FallbackLLM._call` (lines 142-184 of `fallback.py`): `pOp k`
(resp. `sOp k`) is the outcome of the `k`-th invocation of the primary
(resp. fallback) adapter's `_call` within this call. -/
def call (fb : FallbackLLM α) (pOp sOp : ℕ → Except String String) :
    CallOutcome α :=
  let pr := fb.retry_strategy.execute_with_retry pOp
  match pr.result with
  | .ok r => ⟨.ok r, { fb with last_successful_llm := some fb.primary_llm }, pr.calls, 0⟩
  | .error _ =>
    let sr := fb.retry_strategy.execute_with_retry (tryFallbackOp fb sOp)
    match sr.result with
    | .ok r => ⟨.ok r, { fb with last_successful_llm := fb.fallback_llm }, pr.calls, sr.calls⟩
    | .error e => ⟨.error e, fb, pr.calls, sr.calls⟩

/-- One `_call` invocation's adapter behaviours, for running sequences. -/
structure CallScript where
  pOp : ℕ → Except String String
  sOp : ℕ → Except String String

/-- Run a sequence of `_call` invocations, keeping only the state. -/
def runCalls (fb : FallbackLLM α) (scripts : List CallScript) : FallbackLLM α :=
  scripts.foldl (fun b s => (b.call s.pOp s.sOp).post) fb

end FallbackLLM

/-!
Embedding of `src/llm/llm_factory.py`.

`create_llm` / `create_llm_by_provider` construct provider objects and may
raise; for `get_llm_for_task` they are modelled by an environment mapping
each requested configuration to success or failure, and the embedding
additionally records which constructions were attempted, in order.
-/

/-- `LLMType` enum. -/
inductive LLMType where
  | LOCAL_FAST
  | LOCAL_ACCURATE
  | CLOUD_FAST
  | CLOUD_ACCURATE
deriving Repr, DecidableEq

/-- One entry of `LLMFactory._llm_type_map`. -/
structure LLMProfile where
  provider : String
  model : String
  temperature : ℚ
deriving Repr, DecidableEq

/-- `LLMFactory._llm_type_map`. -/
def llm_type_map : LLMType → LLMProfile
  | .LOCAL_FAST => ⟨"ollama", "llama3", 7/10⟩
  | .LOCAL_ACCURATE => ⟨"ollama", "llama3:70b", 1/2⟩
  | .CLOUD_FAST => ⟨"openai", "gpt-3.5-turbo", 7/10⟩
  | .CLOUD_ACCURATE => ⟨"openai", "gpt-4", 1/2⟩

/-- The configuration-resolution part of `LLMFactory.create_llm`: looks
up the type's profile and applies the optional temperature override
(`temperature if temperature is not None else default_temp`). -/
def create_llm_profile (llm_type : LLMType) (temperature : Option ℚ) : LLMProfile :=
  let config := llm_type_map llm_type
  { config with temperature := temperature.getD config.temperature }

/-- The tier-selection logic at the top of `LLMFactory.get_llm_for_task`
(lines 114-121). -/
def select_llm_type (task_type : String) (sensitive_data : Bool) : LLMType :=
  if sensitive_data ∨ task_type ∈ ["diagnosis", "treatment_planning"] then
    LLMType.CLOUD_ACCURATE
  else if task_type ∈ ["summarization", "extraction"] then
    LLMType.CLOUD_FAST
  else
    LLMType.CLOUD_FAST

/-- Python `temperature or 0.7` (line 138): `None` and `0.0` are both
falsy, so either yields the default. -/
def pyOrDefault (temperature : Option ℚ) (d : ℚ) : ℚ :=
  match temperature with
  | some x => if x = 0 then d else x
  | none => d

/-- Environment supplying the outcome of each LLM construction:
`create` models `cls.create_llm(type, temperature)` and
`create_by_provider` models `cls.create_llm_by_provider(provider, model,
temp)`. -/
structure CreateEnv where
  create : LLMType → Option ℚ → Except String String
  create_by_provider : String → String → ℚ → Except String String

/-- One attempted construction inside `get_llm_for_task`. -/
inductive Attempt where
  | tier (t : LLMType)
  | basic
deriving Repr, DecidableEq

/-- `LLMFactory.get_llm_for_task` (lines 103-141): result (or propagated
exception) together with the list of attempted constructions. -/
def get_llm_for_task (env : CreateEnv) (task_type : String)
    (sensitive_data : Bool) (temperature : Option ℚ) :
    Except String String × List Attempt :=
  let llm_type := select_llm_type task_type sensitive_data
  match env.create llm_type temperature with
  | .ok r => (.ok r, [.tier llm_type])
  | .error _ =>
    if llm_type = LLMType.CLOUD_FAST ∨ llm_type = LLMType.CLOUD_ACCURATE then
      let fallback_type :=
        if llm_type = LLMType.CLOUD_FAST then LLMType.LOCAL_FAST
        else LLMType.LOCAL_ACCURATE
      match env.create fallback_type temperature with
      | .ok r => (.ok r, [.tier llm_type, .tier fallback_type])
      | .error e => (.error e, [.tier llm_type, .tier fallback_type])
    else
      match env.create_by_provider "openai" "gpt-3.5-turbo" (pyOrDefault temperature (7/10)) with
      | .ok r => (.ok r, [.tier llm_type, .basic])
      | .error e => (.error e, [.tier llm_type, .basic])

/-!  ## Concrete instances used in counterexamples and witnesses  -/

/-- An operation that raises on every attempt. -/
def alwaysFail : ℕ → Except String String := fun _ => Except.error "boom"

/-- An operation that raises a distinct exception on each attempt. -/
def failWithIndex : ℕ → Except String String := fun k => Except.error (toString k)

/-- An operation that succeeds on every attempt. -/
def alwaysOk : ℕ → Except String String := fun _ => Except.ok "answer"

/-- A breaker that has seen one successful check at time 0 (cached) and
was then driven OPEN by three recorded failures at time 1. -/
def cexBreaker : CircuitBreaker :=
  ((((CircuitBreaker.init none).is_available 0 (some true)).post.record_failure
      1).record_failure 1).record_failure 1

/-- A freshly constructed breaker placed in the half-open state with two
accumulated failures, exercising the half-open transition rules. -/
def halfOpenBreaker : CircuitBreaker :=
  { CircuitBreaker.init none with state := "half_open", failures := 2 }

/-- A freshly constructed breaker that has two accumulated failures while
still closed. -/
def closedBreaker2 : CircuitBreaker :=
  { CircuitBreaker.init none with failures := 2 }

/-- A creation environment in which both cloud-fast and local-fast
construction fail while the basic provider construction succeeds. -/
def cexEnv : CreateEnv where
  create := fun t _ =>
    if t = LLMType.CLOUD_FAST ∨ t = LLMType.LOCAL_FAST then Except.error "tier down"
    else Except.ok "made"
  create_by_provider := fun _ _ _ => Except.ok "basic"

/-- A fallback LLM over string-named adapters "p" and "s". -/
def cexFallback : FallbackLLM String :=
  FallbackLLM.init "p" (some "s") none

/-!  ## Helper lemmas about the retry loop  -/

namespace RetryStrategy

/-- Unfolding: a successful attempt stops the loop at once. -/
lemma retryGo_ok {ε α : Type} {op : ℕ → Except ε α} {a : ℕ} {v : α}
    (hop : op a = Except.ok v) (d M fac : ℚ) (fuel : ℕ) :
    retryGo op d M fac a fuel = ⟨Except.ok v, 1, []⟩ := by
  rw [retryGo.eq_1, hop]

/-- Unfolding: a failed attempt with no retries left raises at once. -/
lemma retryGo_err_zero {ε α : Type} {op : ℕ → Except ε α} {a : ℕ} {e : ε}
    (hop : op a = Except.error e) (d M fac : ℚ) :
    retryGo op d M fac a 0 = ⟨Except.error e, 1, []⟩ := by
  rw [retryGo.eq_1, hop]

/-- Unfolding: a failed attempt with fuel left sleeps `d` and recurses
with the updated delay. -/
lemma retryGo_err_succ {ε α : Type} {op : ℕ → Except ε α} {a : ℕ} {e : ε}
    (hop : op a = Except.error e) (d M fac : ℚ) (n : ℕ) :
    retryGo op d M fac a (n + 1) =
      ⟨(retryGo op (min (d * fac) M) M fac (a + 1) n).result,
       (retryGo op (min (d * fac) M) M fac (a + 1) n).calls + 1,
       d :: (retryGo op (min (d * fac) M) M fac (a + 1) n).sleeps⟩ := by
  rw [retryGo.eq_1, hop]

/-- The retry loop is extensional in the operation. -/
lemma retryGo_congr {ε α : Type} {op op' : ℕ → Except ε α}
    (h : ∀ k, op k = op' k) (M fac : ℚ) :
    ∀ (fuel : ℕ) (d : ℚ) (a : ℕ),
      retryGo op d M fac a fuel = retryGo op' d M fac a fuel := by
  intro fuel
  induction fuel with
  | zero =>
      intro d a
      cases hop : op' a with
      | ok v => rw [retryGo_ok ((h a).trans hop), retryGo_ok hop]
      | error e => rw [retryGo_err_zero ((h a).trans hop), retryGo_err_zero hop]
  | succ n ih =>
      intro d a
      cases hop : op' a with
      | ok v => rw [retryGo_ok ((h a).trans hop), retryGo_ok hop]
      | error e =>
          rw [retryGo_err_succ ((h a).trans hop), retryGo_err_succ hop,
            ih (min (d * fac) M) (a + 1)]

/-- On an operation that raises on every attempt, the retry loop makes
`fuel + 1` calls and ends with the exception of the final attempt. -/
lemma retryGo_all_fail {ε α : Type} {op : ℕ → Except ε α} {f : ℕ → ε}
    (h : ∀ k, op k = Except.error (f k)) (M fac : ℚ) :
    ∀ (fuel : ℕ) (d : ℚ) (a : ℕ),
      (retryGo op d M fac a fuel).result = Except.error (f (a + fuel)) ∧
      (retryGo op d M fac a fuel).calls = fuel + 1 := by
  intro fuel
  induction fuel with
  | zero => intro d a; rw [retryGo_err_zero (h a)]; simp
  | succ n ih =>
      intro d a
      have hrec := ih (min (d * fac) M) (a + 1)
      rw [retryGo_err_succ (h a)]
      refine ⟨?_, ?_⟩
      · show (retryGo op (min (d * fac) M) M fac (a + 1) n).result = _
        rw [hrec.1]
        have : a + 1 + n = a + (n + 1) := by omega
        rw [this]
      · show (retryGo op (min (d * fac) M) M fac (a + 1) n).calls + 1 = _
        rw [hrec.2]

/-- On an operation that raises on every attempt, the `j`-th slept delay
follows the capped geometric schedule, provided the starting delay does
not already exceed the cap. -/
lemma retryGo_sleeps_get {ε α : Type} {op : ℕ → Except ε α} {f : ℕ → ε}
    (h : ∀ k, op k = Except.error (f k)) {M fac : ℚ}
    (hM : 0 < M) (hf : 1 ≤ fac) :
    ∀ (fuel : ℕ) (d : ℚ) (a j : ℕ), 0 < d → d ≤ M →
      (retryGo op d M fac a fuel).sleeps.get? j =
        if j < fuel then some (min (d * fac ^ j) M) else none := by
  intro fuel
  induction fuel with
  | zero => intro d a j _ _; rw [retryGo_err_zero (h a)]; simp
  | succ n ih =>
      intro d a j hd hdM
      rw [retryGo_err_succ (h a)]
      cases j with
      | zero =>
          simp only [List.get?_cons_zero, Nat.zero_lt_succ, if_true, pow_zero, mul_one]
          rw [min_eq_left hdM]
      | succ j' =>
          have hd' : 0 < min (d * fac) M :=
            lt_min (mul_pos hd (lt_of_lt_of_le one_pos hf)) hM
          have hdM' : min (d * fac) M ≤ M := min_le_right _ _
          simp only [List.get?_cons_succ]
          rw [ih (min (d * fac) M) (a + 1) j' hd' hdM']
          have hiff : j' < n ↔ j' + 1 < n + 1 := by omega
          rcases le_or_lt (d * fac) M with hc | hc
          · rw [min_eq_left hc]
            have : d * fac * fac ^ j' = d * fac ^ (j' + 1) := by ring
            rw [this]
            simp only [hiff]
          · rw [min_eq_right (le_of_lt hc)]
            have h1 : (1 : ℚ) ≤ fac ^ j' := one_le_pow₀ hf
            have hL : min (M * fac ^ j') M = M :=
              min_eq_right (le_mul_of_one_le_right (le_of_lt hM) h1)
            have hR : min (d * fac ^ (j' + 1)) M = M := by
              apply min_eq_right
              have : M * fac ^ j' ≤ d * fac * fac ^ j' :=
                mul_le_mul_of_nonneg_right (le_of_lt hc) (by positivity)
              have h2 : d * fac ^ (j' + 1) = d * fac * fac ^ j' := by ring
              have h3 : M ≤ M * fac ^ j' := le_mul_of_one_le_right (le_of_lt hM) h1
              linarith
            rw [hL, hR]
            simp only [hiff]

/-- Every slept delay is bounded by the larger of the starting delay and
the cap, for any operation. -/
lemma retryGo_sleeps_le {ε α : Type} (op : ℕ → Except ε α) (M fac : ℚ) :
    ∀ (fuel : ℕ) (d : ℚ) (a : ℕ),
      ∀ x ∈ (retryGo op d M fac a fuel).sleeps, x ≤ max d M := by
  intro fuel
  induction fuel with
  | zero =>
      intro d a x hx
      cases hop : op a with
      | ok v => rw [retryGo_ok hop] at hx; simp at hx
      | error e => rw [retryGo_err_zero hop] at hx; simp at hx
  | succ n ih =>
      intro d a x hx
      cases hop : op a with
      | ok v => rw [retryGo_ok hop] at hx; simp at hx
      | error e =>
          rw [retryGo_err_succ hop] at hx
          simp only [List.mem_cons] at hx
          rcases hx with rfl | hx
          · exact le_max_left _ _
          · have h1 := ih (min (d * fac) M) (a + 1) x hx
            have h2 : max (min (d * fac) M) M ≤ max d M :=
              max_le (le_trans (min_le_right _ _) (le_max_right _ _)) (le_max_right _ _)
            exact le_trans h1 h2

/-- If the first attempt fails and a retry is allowed, the first slept
delay is exactly the starting delay, uncapped. -/
lemma retryGo_first_sleep {ε α : Type} {op : ℕ → Except ε α} {e : ε}
    (d M fac : ℚ) (a n : ℕ) (hop : op a = Except.error e) :
    (retryGo op d M fac a (n + 1)).sleeps.get? 0 = some d := by
  rw [retryGo_err_succ hop]
  rfl

/-- `execute_with_retry` is extensional in the operation. -/
lemma execute_with_retry_congr (s : RetryStrategy) {ε α : Type}
    {op op' : ℕ → Except ε α} (h : ∀ k, op k = op' k) :
    s.execute_with_retry op = s.execute_with_retry op' :=
  retryGo_congr h s.max_delay s.backoff_factor s.max_retries s.initial_delay 0

/-- `execute_with_retry` on an always-raising operation: `max_retries+1`
calls, final exception surfaced. -/
lemma execute_with_retry_all_fail (s : RetryStrategy) {ε α : Type}
    {op : ℕ → Except ε α} {f : ℕ → ε}
    (h : ∀ k, op k = Except.error (f k)) :
    (s.execute_with_retry op).result = Except.error (f s.max_retries) ∧
    (s.execute_with_retry op).calls = s.max_retries + 1 := by
  have hgo := retryGo_all_fail h s.max_delay s.backoff_factor
    s.max_retries s.initial_delay 0
  unfold execute_with_retry
  simpa using hgo

end RetryStrategy

/-!  ## Helper lemmas about the fallback LLM  -/

namespace FallbackLLM

lemma tryFallbackOp_some {α : Type} {fb : FallbackLLM α} {s : α}
    (hf : fb.fallback_llm = some s) (sOp : ℕ → Except String String) :
    ∀ k, tryFallbackOp fb sOp k = sOp k := by
  intro k
  unfold tryFallbackOp
  rw [hf]

lemma tryFallbackOp_none {α : Type} {fb : FallbackLLM α}
    (hf : fb.fallback_llm = none) (sOp : ℕ → Except String String) :
    ∀ k, tryFallbackOp fb sOp k =
      Except.error "No fallback LLM available" := by
  intro k
  unfold tryFallbackOp
  rw [hf]

lemma call_primary_ok {α : Type} (fb : FallbackLLM α)
    (pOp sOp : ℕ → Except String String) (r : String)
    (h : (fb.retry_strategy.execute_with_retry pOp).result = Except.ok r) :
    fb.call pOp sOp =
      ⟨Except.ok r, { fb with last_successful_llm := some fb.primary_llm },
        (fb.retry_strategy.execute_with_retry pOp).calls, 0⟩ := by
  unfold call
  dsimp only
  rw [h]

lemma call_secondary_ok {α : Type} (fb : FallbackLLM α)
    (pOp sOp : ℕ → Except String String) (e : String) (r : String)
    (hp : (fb.retry_strategy.execute_with_retry pOp).result = Except.error e)
    (hs : (fb.retry_strategy.execute_with_retry (tryFallbackOp fb sOp)).result =
      Except.ok r) :
    fb.call pOp sOp =
      ⟨Except.ok r, { fb with last_successful_llm := fb.fallback_llm },
        (fb.retry_strategy.execute_with_retry pOp).calls,
        (fb.retry_strategy.execute_with_retry (tryFallbackOp fb sOp)).calls⟩ := by
  unfold call
  dsimp only
  rw [hp, hs]

lemma call_both_err {α : Type} (fb : FallbackLLM α)
    (pOp sOp : ℕ → Except String String) (e e2 : String)
    (hp : (fb.retry_strategy.execute_with_retry pOp).result = Except.error e)
    (hs : (fb.retry_strategy.execute_with_retry (tryFallbackOp fb sOp)).result =
      Except.error e2) :
    fb.call pOp sOp =
      ⟨Except.error e2, fb,
        (fb.retry_strategy.execute_with_retry pOp).calls,
        (fb.retry_strategy.execute_with_retry (tryFallbackOp fb sOp)).calls⟩ := by
  unfold call
  dsimp only
  rw [hp, hs]

/-- Shape of one `_call`: either it succeeds and the last-successful
pointer moves to the primary, or it succeeds via a present fallback and
the pointer moves there, or it fails and the whole instance state is
unchanged. -/
lemma call_shape {α : Type} (fb : FallbackLLM α)
    (pOp sOp : ℕ → Except String String) :
    (∃ r, (fb.call pOp sOp).result = Except.ok r ∧
      ((fb.call pOp sOp).post =
          { fb with last_successful_llm := some fb.primary_llm } ∨
        ((fb.call pOp sOp).post =
            { fb with last_successful_llm := fb.fallback_llm } ∧
          fb.fallback_llm ≠ none))) ∨
    ((fb.call pOp sOp).post = fb ∧
      ∃ e, (fb.call pOp sOp).result = Except.error e) := by
  cases hp : (fb.retry_strategy.execute_with_retry pOp).result with
  | ok r =>
      left
      rw [call_primary_ok fb pOp sOp r hp]
      exact ⟨r, rfl, Or.inl rfl⟩
  | error e =>
      cases hs : (fb.retry_strategy.execute_with_retry (tryFallbackOp fb sOp)).result with
      | ok r =>
          left
          rw [call_secondary_ok fb pOp sOp e r hp hs]
          refine ⟨r, rfl, Or.inr ⟨rfl, ?_⟩⟩
          intro hnone
          have hall := (fb.retry_strategy.execute_with_retry_all_fail
            (tryFallbackOp_none hnone sOp)).1
          rw [hall] at hs
          cases hs
      | error e2 =>
          right
          rw [call_both_err fb pOp sOp e e2 hp hs]
          exact ⟨rfl, e2, rfl⟩

lemma call_fields {α : Type} (fb : FallbackLLM α)
    (pOp sOp : ℕ → Except String String) :
    (fb.call pOp sOp).post.primary_llm = fb.primary_llm ∧
    (fb.call pOp sOp).post.fallback_llm = fb.fallback_llm := by
  rcases call_shape fb pOp sOp with ⟨r, _, h | ⟨h, _⟩⟩ | ⟨h, _⟩ <;>
    rw [h] <;> exact ⟨rfl, rfl⟩

lemma runCalls_last {α : Type} :
    ∀ (scripts : List CallScript) (fb : FallbackLLM α),
      (∃ x, fb.last_successful_llm = some x ∧
        (x = fb.primary_llm ∨ some x = fb.fallback_llm)) →
      ∃ x, (runCalls fb scripts).last_successful_llm = some x ∧
        (x = fb.primary_llm ∨ some x = fb.fallback_llm) := by
  intro scripts
  induction scripts with
  | nil => intro fb h; exact h
  | cons s rest ih =>
      intro fb h
      have hstep : ∃ x, (fb.call s.pOp s.sOp).post.last_successful_llm = some x ∧
          (x = fb.primary_llm ∨ some x = fb.fallback_llm) := by
        rcases call_shape fb s.pOp s.sOp with ⟨r, _, h1 | ⟨h1, hne⟩⟩ | ⟨h1, _⟩
        · rw [h1]; exact ⟨fb.primary_llm, rfl, Or.inl rfl⟩
        · rw [h1]
          rcases hof : fb.fallback_llm with _ | s'
          · exact absurd hof hne
          · exact ⟨s', rfl, Or.inr rfl⟩
        · rw [h1]; exact h
      have hfields := call_fields fb s.pOp s.sOp
      have := ih ((fb.call s.pOp s.sOp).post)
        (by rw [hfields.1, hfields.2]; exact hstep)
      rw [hfields.1, hfields.2] at this
      exact this

end FallbackLLM

/-!  ## Helper lemmas about the circuit breaker  -/

namespace CircuitBreaker

lemma is_available_cache_fresh {b : CircuitBreaker} {t : ℚ} {r : Bool} {ts : ℚ}
    (h : b.cache = some (r, ts)) (hf : t - ts < CACHE_TIMEOUT) (check : Option Bool) :
    b.is_available t check = ⟨r, b, false⟩ := by
  unfold is_available
  rw [h]
  simp [hf]

lemma is_available_cache_stale {b : CircuitBreaker} {t : ℚ} {r : Bool} {ts : ℚ}
    (h : b.cache = some (r, ts)) (hf : ¬t - ts < CACHE_TIMEOUT) (check : Option Bool) :
    b.is_available t check = availOpen b t check := by
  unfold is_available
  rw [h]
  simp [hf]

lemma is_available_cache_none {b : CircuitBreaker} {t : ℚ}
    (h : b.cache = none) (check : Option Bool) :
    b.is_available t check = availOpen b t check := by
  unfold is_available
  rw [h]

lemma availOpen_blocked {b : CircuitBreaker} {t lf : ℚ}
    (hs : b.state = "open") (hlf : b.last_failure_time = some lf)
    (ht : t - lf < b.config.reset_timeout) (check : Option Bool) :
    availOpen b t check = ⟨false, b, false⟩ := by
  unfold availOpen
  rw [hlf]
  simp [hs, ht]

lemma record_failure_cache (b : CircuitBreaker) (t : ℚ) :
    (b.record_failure t).cache = b.cache := by
  unfold record_failure
  dsimp only
  split
  · rfl
  · split <;> rfl

lemma record_success_cache (b : CircuitBreaker) (t : ℚ) :
    (b.record_success t).cache = b.cache := by
  unfold record_success
  dsimp only
  split <;> rfl

lemma record_failure_state_cases (b : CircuitBreaker) (t : ℚ) :
    (b.record_failure t).state = b.state ∨ (b.record_failure t).state = "open" := by
  unfold record_failure
  dsimp only
  split
  · right; rfl
  · split
    · right; rfl
    · left; rfl

lemma record_success_state_cases (b : CircuitBreaker) (t : ℚ) :
    (b.record_success t).state = b.state ∨ (b.record_success t).state = "closed" := by
  unfold record_success
  dsimp only
  split
  · right; rfl
  · left; rfl

lemma record_failure_fields (b : CircuitBreaker) (t : ℚ) :
    (b.record_failure t).failures = b.failures + 1 ∧
    (b.record_failure t).last_failure_time = some t ∧
    (b.record_failure t).success_count = 0 ∧
    (b.record_failure t).config = b.config := by
  unfold record_failure
  dsimp only
  split
  · exact ⟨rfl, rfl, rfl, rfl⟩
  · split <;> exact ⟨rfl, rfl, rfl, rfl⟩

lemma availCheck_some_result (b : CircuitBreaker) (t : ℚ) (c : Bool) :
    (availCheck b t (some c)).result = c := rfl

lemma availCheck_some_cache (b : CircuitBreaker) (t : ℚ) (c : Bool) :
    (availCheck b t (some c)).post.cache = some (c, t) := by
  unfold availCheck
  dsimp only
  cases c with
  | true => simp [record_success_cache]
  | false => simp [record_failure_cache]

lemma availCheck_post_state (b : CircuitBreaker) (t : ℚ) (check : Option Bool) :
    (availCheck b t check).post.state = b.state ∨
    (availCheck b t check).post.state = "open" ∨
    (availCheck b t check).post.state = "closed" := by
  unfold availCheck
  cases check with
  | none =>
      rcases record_failure_state_cases b t with h | h
      · left; exact h
      · right; left; exact h
  | some c =>
      dsimp only
      cases c with
      | true =>
          rcases record_success_state_cases { b with cache := some (true, t) } t with h | h
        <;> simp only [if_true, Bool.true_eq_false, if_pos] at *
          · left; exact h
          · right; right; exact h
      | false =>
          rcases record_failure_state_cases { b with cache := some (false, t) } t with h | h
          · left; exact h
          · right; left; exact h

/-- Shape of one `is_available` call: either it returns early (no check
invoked, cache untouched, state at most moved to half-open), or it runs
the injected check on a gate state agreeing with `b` on everything except
possibly `state` and `last_failure_time`. -/
lemma is_available_shape (b : CircuitBreaker) (t : ℚ) (check : Option Bool) :
    ((b.is_available t check).checkRan = false ∧
      (b.is_available t check).post.cache = b.cache ∧
      ((b.is_available t check).post.state = b.state ∨
        (b.is_available t check).post.state = "half_open")) ∨
    (∃ b', b.is_available t check = availCheck b' t check ∧
      b'.cache = b.cache ∧ b'.failures = b.failures ∧
      b'.success_count = b.success_count ∧ b'.config = b.config ∧
      (b'.state = b.state ∨ b'.state = "half_open")) := by
  have halfShape : ∀ (bb : CircuitBreaker),
      (availHalfOpen bb t check = ⟨false, bb, false⟩) ∨
      (availHalfOpen bb t check = availCheck bb t check) := by
    intro bb
    unfold availHalfOpen
    split
    · cases hlf : bb.last_failure_time with
      | some lf =>
          dsimp only
          split
          · left; rfl
          · right; rfl
      | none => right; rfl
    · right; rfl
  have openShape :
      ((availOpen b t check).checkRan = false ∧
        (availOpen b t check).post.cache = b.cache ∧
        ((availOpen b t check).post.state = b.state ∨
          (availOpen b t check).post.state = "half_open")) ∨
      (∃ b', availOpen b t check = availCheck b' t check ∧
        b'.cache = b.cache ∧ b'.failures = b.failures ∧
        b'.success_count = b.success_count ∧ b'.config = b.config ∧
        (b'.state = b.state ∨ b'.state = "half_open")) := by
    unfold availOpen
    split
    · cases hlf : b.last_failure_time with
      | some lf =>
          dsimp only
          split
          · left; exact ⟨rfl, rfl, Or.inl rfl⟩
          · rcases halfShape { b with state := "half_open", last_failure_time := some t }
              with h | h
            · rw [h]; left; exact ⟨rfl, rfl, Or.inr rfl⟩
            · rw [h]
              right
              exact ⟨_, rfl, rfl, rfl, rfl, rfl, Or.inr rfl⟩
      | none =>
          rcases halfShape { b with state := "half_open", last_failure_time := some t }
            with h | h
          · rw [h]; left; exact ⟨rfl, rfl, Or.inr rfl⟩
          · rw [h]
            right
            exact ⟨_, rfl, rfl, rfl, rfl, rfl, Or.inr rfl⟩
    · rcases halfShape b with h | h
      · rw [h]; left; exact ⟨rfl, rfl, Or.inl rfl⟩
      · rw [h]
        right
        exact ⟨b, rfl, rfl, rfl, rfl, rfl, Or.inl rfl⟩
  rcases hcache : b.cache with _ | ⟨r, ts⟩
  · rw [is_available_cache_none hcache check]
    rcases openShape with ⟨h1, h2, h3⟩ | ⟨b', he2, h2, h3, h4, h5, h6⟩
    · left; exact ⟨h1, h2.trans hcache, h3⟩
    · right; exact ⟨b', he2, h2.trans hcache, h3, h4, h5, h6⟩
  · by_cases hf : t - ts < CACHE_TIMEOUT
    · rw [is_available_cache_fresh hcache hf check]
      left
      exact ⟨rfl, hcache, Or.inl rfl⟩
    · rw [is_available_cache_stale hcache hf check]
      rcases openShape with ⟨h1, h2, h3⟩ | ⟨b', he2, h2, h3, h4, h5, h6⟩
      · left; exact ⟨h1, h2.trans hcache, h3⟩
      · right; exact ⟨b', he2, h2.trans hcache, h3, h4, h5, h6⟩

/-- Every public operation keeps the state string within the three
`CircuitState` values. -/
lemma applyOp_state_mem (b : CircuitBreaker) (o : Op)
    (h : b.state = "closed" ∨ b.state = "open" ∨ b.state = "half_open") :
    (applyOp b o).state = "closed" ∨ (applyOp b o).state = "open" ∨
    (applyOp b o).state = "half_open" := by
  cases o with
  | fail t =>
      simp only [applyOp]
      rcases record_failure_state_cases b t with h' | h'
      · rw [h']; exact h
      · right; left; exact h'
  | succ t =>
      simp only [applyOp]
      rcases record_success_state_cases b t with h' | h'
      · rw [h']; exact h
      · left; exact h'
  | reset => left; rfl
  | avail t check =>
      simp only [applyOp]
      rcases is_available_shape b t check with ⟨_, _, hs⟩ | ⟨b', heq, _, _, _, _, hs⟩
      · rcases hs with h' | h'
        · rw [h']; exact h
        · right; right; exact h'
      · have hb' : b'.state = "closed" ∨ b'.state = "open" ∨ b'.state = "half_open" := by
          rcases hs with h' | h'
          · rw [h']; exact h
          · right; right; exact h'
        rw [heq]
        rcases availCheck_post_state b' t check with h' | h' | h'
        · rw [h']; exact hb'
        · right; left; exact h'
        · left; exact h'

lemma runOps_state_mem :
    ∀ (ops : List Op) (b : CircuitBreaker),
      (b.state = "closed" ∨ b.state = "open" ∨ b.state = "half_open") →
      ((runOps b ops).state = "closed" ∨ (runOps b ops).state = "open" ∨
        (runOps b ops).state = "half_open") := by
  intro ops
  induction ops with
  | nil => intro b h; exact h
  | cons o rest ih =>
      intro b h
      exact ih (applyOp b o) (applyOp_state_mem b o h)

end CircuitBreaker

/-!  ## Claims C2 and C3: the retry strategy  -/

/-- C2 (counterexample): with `max_retries = 1`, `initial_delay = 20`,
`max_delay = 10`, `backoff_factor = 2` — all satisfying the claim's
premises `initial_delay > 0`, `max_delay > 0`, `backoff_factor > 1` — the
delay slept before attempt 2 (k = 1) is 20, whereas the claimed formula
`min(initial_delay * backoff_factor^(k-1), max_delay)` gives 10: the
first delay is not capped by `max_delay`. -/
theorem C2_counterexample :
    (0 : ℚ) < 20 ∧ (0 : ℚ) < 10 ∧ (1 : ℚ) < 2 ∧
    ((RetryStrategy.mk 1 20 10 2).execute_with_retry alwaysFail).sleeps.get? 0 =
      some 20 ∧
    min ((20 : ℚ) * 2 ^ (1 - 1 : ℕ)) 10 = 10 ∧ (20 : ℚ) ≠ 10 := by
  refine ⟨by norm_num, by norm_num, by norm_num, rfl, by norm_num, by norm_num⟩

/-- C2 (amended): for a `RetryStrategy` with `initial_delay > 0`,
`max_delay > 0` and `backoff_factor > 1` run on an always-failing
operation: provided `initial_delay ≤ max_delay`, the delay slept before
attempt `k+1` (the `j`-th slept delay, `j = k - 1`) equals
`min(initial_delay * backoff_factor^(k-1), max_delay)`;  without that
proviso every delay is still bounded by
`max initial_delay max_delay`, and the first delay always equals
`initial_delay` itself, uncapped. -/
theorem C2_backoff_schedule {ε α : Type} (s : RetryStrategy)
    (op : ℕ → Except ε α) (f : ℕ → ε)
    (h : ∀ k, op k = Except.error (f k))
    (hi : 0 < s.initial_delay) (hM : 0 < s.max_delay)
    (hf : 1 < s.backoff_factor) :
    (s.initial_delay ≤ s.max_delay →
      ∀ j, (s.execute_with_retry op).sleeps.get? j =
        if j < s.max_retries then
          some (min (s.initial_delay * s.backoff_factor ^ j) s.max_delay)
        else none) ∧
    (∀ x ∈ (s.execute_with_retry op).sleeps,
      x ≤ max s.initial_delay s.max_delay) ∧
    (0 < s.max_retries →
      (s.execute_with_retry op).sleeps.get? 0 = some s.initial_delay) := by
  refine ⟨?_, ?_, ?_⟩
  · intro hle j
    exact RetryStrategy.retryGo_sleeps_get h hM (le_of_lt hf)
      s.max_retries s.initial_delay 0 j hi hle
  · intro x hx
    exact RetryStrategy.retryGo_sleeps_le op s.max_delay s.backoff_factor
      s.max_retries s.initial_delay 0 x hx
  · intro hpos
    obtain ⟨n, hn⟩ : ∃ n, s.max_retries = n + 1 := ⟨s.max_retries - 1, by omega⟩
    unfold RetryStrategy.execute_with_retry
    rw [hn]
    exact RetryStrategy.retryGo_first_sleep _ _ _ 0 n (h 0)

/-- C2 witness: instantiating the amended schedule at a concrete strategy
`max_retries = 3, initial_delay = 1, max_delay = 10, backoff_factor = 2`:
the second slept delay is `min(1 * 2^1, 10)`. -/
theorem C2_backoff_schedule_witness :
    ((RetryStrategy.mk 3 1 10 2).execute_with_retry alwaysFail).sleeps.get? 1 =
      if 1 < 3 then some (min ((1 : ℚ) * 2 ^ 1) 10) else none :=
  (C2_backoff_schedule (RetryStrategy.mk 3 1 10 2) alwaysFail (fun _ => "boom")
    (fun _ => rfl) (by norm_num) (by norm_num) (by norm_num)).1 (by norm_num) 1

/-- C3 (confirmed): on an operation that raises on every attempt,
`execute_with_retry` invokes the operation exactly `max_retries + 1`
times and the raised exception is the one produced by the final attempt
(attempt index `max_retries`), not a wrapper. -/
theorem C3_retry_attempt_count {ε α : Type} (s : RetryStrategy)
    (op : ℕ → Except ε α) (f : ℕ → ε)
    (h : ∀ k, op k = Except.error (f k)) :
    (s.execute_with_retry op).result = Except.error (f s.max_retries) ∧
    (s.execute_with_retry op).calls = s.max_retries + 1 := by
  have hgo := RetryStrategy.retryGo_all_fail h s.max_delay s.backoff_factor
    s.max_retries s.initial_delay 0
  unfold RetryStrategy.execute_with_retry
  simpa using hgo

/-- C3 witness: with `max_retries = 2` and an operation raising a
distinct exception per attempt, the operation runs exactly 3 times and
the final exception is the third attempt's own ("2"). -/
theorem C3_retry_attempt_count_witness :
    ((RetryStrategy.mk 2 1 10 2).execute_with_retry failWithIndex).result =
      Except.error "2" ∧
    ((RetryStrategy.mk 2 1 10 2).execute_with_retry failWithIndex).calls = 3 :=
  C3_retry_attempt_count (RetryStrategy.mk 2 1 10 2) failWithIndex
    (fun k => toString k) (fun _ => rfl)

/-!  ## Claims C1, C7, C8: `is_available`  -/

/-- C1 (counterexample): drive a fresh default breaker through a
successful check at time 0 (which caches `True`), then three recorded
failures at time 1, opening the circuit.  At time 2 the breaker is OPEN
and only 1 second has elapsed of the 60-second reset timeout, yet
`is_available` returns `True` straight from the 5-second cache. -/
theorem C1_counterexample :
    (cexBreaker.is_available 2 (some false)).result = true ∧
    cexBreaker.state = "open" ∧
    cexBreaker.last_failure_time = some 1 ∧
    (2 : ℚ) - 1 < cexBreaker.config.reset_timeout := by
  have hc : cexBreaker.cache = some (true, 0) := rfl
  have hf : (2 : ℚ) - 0 < CACHE_TIMEOUT := by norm_num [CACHE_TIMEOUT]
  have hr : cexBreaker.config.reset_timeout = 60 := rfl
  refine ⟨?_, rfl, rfl, ?_⟩
  · rw [CircuitBreaker.is_available_cache_fresh hc hf]
  · rw [hr]; norm_num

/-- C1 (amended): `is_available` never returns `True` while the breaker
is OPEN and the time since the last failure is below `reset_timeout`,
UNLESS a cached check result younger than the 5-second cache TTL exists,
in which case that cached boolean is returned unchanged regardless of
state.  Formally: a `True` answer in that OPEN window forces a fresh
`True` cache entry. -/
theorem C1_open_blocked (b : CircuitBreaker) (t lf : ℚ) (check : Option Bool)
    (hs : b.state = "open") (hlf : b.last_failure_time = some lf)
    (ht : t - lf < b.config.reset_timeout)
    (hres : (b.is_available t check).result = true) :
    ∃ ts, b.cache = some (true, ts) ∧ t - ts < CACHE_TIMEOUT := by
  rcases hcache : b.cache with _ | ⟨r, ts⟩
  · rw [CircuitBreaker.is_available_cache_none hcache,
      CircuitBreaker.availOpen_blocked hs hlf ht] at hres
    simp at hres
  · by_cases hf : t - ts < CACHE_TIMEOUT
    · rw [CircuitBreaker.is_available_cache_fresh hcache hf] at hres
      dsimp only at hres
      exact ⟨ts, by rw [hres], hf⟩
    · rw [CircuitBreaker.is_available_cache_stale hcache hf,
        CircuitBreaker.availOpen_blocked hs hlf ht] at hres
      simp at hres

/-- C1 witness: the counterexample breaker instantiates the amended
statement — its `True` answer at time 2 comes from a fresh cache entry. -/
theorem C1_open_blocked_witness :
    ∃ ts, cexBreaker.cache = some (true, ts) ∧ (2 : ℚ) - ts < CACHE_TIMEOUT := by
  have hc : cexBreaker.cache = some (true, 0) := rfl
  have hf : (2 : ℚ) - 0 < CACHE_TIMEOUT := by norm_num [CACHE_TIMEOUT]
  have hres : (cexBreaker.is_available 2 (some false)).result = true := by
    rw [CircuitBreaker.is_available_cache_fresh hc hf]
  have hr : cexBreaker.config.reset_timeout = 60 := rfl
  exact C1_open_blocked cexBreaker 2 1 (some false) rfl rfl
    (by rw [hr]; norm_num) hres

/-- C7 (confirmed): if an `is_available` call at time `t1` executed the
check function (which returned a boolean), then a second call at any time
`t2` within the 5-second cache TTL returns the identical boolean, does
not invoke the check function, and performs no state transition. -/
theorem C7_cache_idempotence (b : CircuitBreaker) (t1 t2 : ℚ) (c : Bool)
    (chk2 : Option Bool)
    (hran : (b.is_available t1 (some c)).checkRan = true)
    (hfresh : t2 - t1 < CACHE_TIMEOUT) :
    ((b.is_available t1 (some c)).post.is_available t2 chk2).result =
      (b.is_available t1 (some c)).result ∧
    ((b.is_available t1 (some c)).post.is_available t2 chk2).post =
      (b.is_available t1 (some c)).post ∧
    ((b.is_available t1 (some c)).post.is_available t2 chk2).checkRan = false := by
  rcases CircuitBreaker.is_available_shape b t1 (some c) with
    ⟨hfalse, _, _⟩ | ⟨b', heq, _, _, _, _, _⟩
  · rw [hran] at hfalse; cases hfalse
  · have hres : (b.is_available t1 (some c)).result = c := by
      rw [heq]; exact CircuitBreaker.availCheck_some_result b' t1 c
    have hpc : (b.is_available t1 (some c)).post.cache = some (c, t1) := by
      rw [heq]; exact CircuitBreaker.availCheck_some_cache b' t1 c
    rw [CircuitBreaker.is_available_cache_fresh hpc hfresh chk2]
    exact ⟨hres.symm, rfl, rfl⟩

/-- C7 witness: on a fresh breaker the first call at time 0 runs the
check, and a second call at time 2 returns the same `True` without
re-checking or transitioning. -/
theorem C7_cache_idempotence_witness :
    (((CircuitBreaker.init none).is_available 0 (some true)).post.is_available
        2 (some false)).result =
      ((CircuitBreaker.init none).is_available 0 (some true)).result ∧
    (((CircuitBreaker.init none).is_available 0 (some true)).post.is_available
        2 (some false)).post =
      ((CircuitBreaker.init none).is_available 0 (some true)).post ∧
    (((CircuitBreaker.init none).is_available 0 (some true)).post.is_available
        2 (some false)).checkRan = false :=
  C7_cache_idempotence (CircuitBreaker.init none) 0 2 true (some false)
    (by decide) (by norm_num [CACHE_TIMEOUT])

/-- C8 (counterexample): on a fresh breaker whose check raises, the call
is treated as a failure (returns `False`, records the failure) but —
contrary to the claim — caches nothing: the cache stays empty, whereas
the same call with a check returning `False` caches `(False, 0)`. -/
theorem C8_counterexample :
    ((CircuitBreaker.init none).is_available 0 none).result = false ∧
    ((CircuitBreaker.init none).is_available 0 none).post.failures = 1 ∧
    ((CircuitBreaker.init none).is_available 0 none).post.cache = none ∧
    ((CircuitBreaker.init none).is_available 0 (some false)).post.cache =
      some (false, 0) := by
  refine ⟨by decide, by decide, by decide, by decide⟩

/-- C8 (amended): when `is_available` reaches the injected check and the
check raises, the exception is not propagated: the call returns `False`
and records a failure (failure counter incremented, success counter
zeroed, last-failure time stamped) — but no result is cached: the cache
is written only when the check returns a boolean. -/
theorem C8_exception_uncached (b : CircuitBreaker) (t : ℚ)
    (hran : (b.is_available t none).checkRan = true) :
    (b.is_available t none).result = false ∧
    (b.is_available t none).post.failures = b.failures + 1 ∧
    (b.is_available t none).post.success_count = 0 ∧
    (b.is_available t none).post.last_failure_time = some t ∧
    (b.is_available t none).post.cache = b.cache := by
  rcases CircuitBreaker.is_available_shape b t none with
    ⟨hfalse, _, _⟩ | ⟨b', heq, hcache, hfail, _, _, _⟩
  · rw [hran] at hfalse; cases hfalse
  · have h := CircuitBreaker.record_failure_fields b' t
    rw [heq]
    refine ⟨rfl, ?_, ?_, ?_, ?_⟩
    · show (b'.record_failure t).failures = b.failures + 1
      rw [h.1, hfail]
    · exact h.2.2.1
    · exact h.2.1
    · show (b'.record_failure t).cache = b.cache
      rw [CircuitBreaker.record_failure_cache, hcache]

/-- C8 witness: a fresh breaker at time 0 with a raising check reaches
the check, returns `False`, records the failure and leaves the cache
untouched. -/
theorem C8_exception_uncached_witness :
    ((CircuitBreaker.init none).is_available 0 none).result = false ∧
    ((CircuitBreaker.init none).is_available 0 none).post.failures =
      (CircuitBreaker.init none).failures + 1 ∧
    ((CircuitBreaker.init none).is_available 0 none).post.success_count = 0 ∧
    ((CircuitBreaker.init none).is_available 0 none).post.last_failure_time =
      some 0 ∧
    ((CircuitBreaker.init none).is_available 0 none).post.cache =
      (CircuitBreaker.init none).cache :=
  C8_exception_uncached (CircuitBreaker.init none) 0 (by decide)

/-!  ## Claim C5: the state machine  -/

/-- C5 (confirmed): from CLOSED, `record_failure` opens the circuit
exactly when the failure counter reaches `failure_threshold`; from
HALF_OPEN a single `record_failure` reopens immediately; from HALF_OPEN
`record_success` closes exactly when the success counter reaches
`success_threshold`; and from the initial CLOSED state no sequence of
public operations reaches a state outside
{"closed", "open", "half_open"}. -/
theorem C5_state_machine :
    (∀ (b : CircuitBreaker) (t : ℚ),
      (b.state = "closed" →
        ((b.record_failure t).state = "open" ↔
          b.config.failure_threshold ≤ b.failures + 1)) ∧
      (b.state = "half_open" → (b.record_failure t).state = "open") ∧
      (b.state = "half_open" →
        ((b.record_success t).state = "closed" ↔
          b.config.success_threshold ≤ b.success_count + 1))) ∧
    (∀ (cfg : Option CircuitBreakerConfig) (ops : List CircuitBreaker.Op),
      (CircuitBreaker.runOps (CircuitBreaker.init cfg) ops).state = "closed" ∨
      (CircuitBreaker.runOps (CircuitBreaker.init cfg) ops).state = "open" ∨
      (CircuitBreaker.runOps (CircuitBreaker.init cfg) ops).state = "half_open") := by
  constructor
  · intro b t
    refine ⟨?_, ?_, ?_⟩
    · intro hs
      unfold CircuitBreaker.record_failure
      dsimp only
      by_cases hth : b.config.failure_threshold ≤ b.failures + 1
      · rw [if_pos ⟨hs, hth⟩]
        exact ⟨fun _ => hth, fun _ => rfl⟩
      · rw [if_neg (fun hc => hth hc.2),
          if_neg (fun hh => absurd (hs.symm.trans hh) (by decide))]
        rw [hs]
        simp only [String.reduceEq, false_iff]
        exact hth
    · intro hs
      unfold CircuitBreaker.record_failure
      dsimp only
      rw [if_neg (fun hc => absurd (hs.symm.trans hc.1) (by decide)), if_pos hs]
    · intro hs
      unfold CircuitBreaker.record_success
      dsimp only
      by_cases hth : b.config.success_threshold ≤ b.success_count + 1
      · rw [if_pos ⟨hs, hth⟩]
        exact ⟨fun _ => hth, fun _ => rfl⟩
      · rw [if_neg (fun hc => hth hc.2)]
        rw [hs]
        simp only [String.reduceEq, false_iff]
        exact hth
  · intro cfg ops
    exact CircuitBreaker.runOps_state_mem ops (CircuitBreaker.init cfg) (Or.inl rfl)

/-- C5 witness: a half-open breaker re-opens on one failure and closes
on one success (default `success_threshold = 1`), and a closed breaker
with two accumulated failures opens on its third. -/
theorem C5_state_machine_witness :
    (halfOpenBreaker.record_failure 0).state = "open" ∧
    (halfOpenBreaker.record_success 0).state = "closed" ∧
    (closedBreaker2.record_failure 0).state = "open" :=
  ⟨(C5_state_machine.1 halfOpenBreaker 0).2.1 rfl,
   ((C5_state_machine.1 halfOpenBreaker 0).2.2 rfl).mpr (by decide),
   ((C5_state_machine.1 closedBreaker2 0).1 rfl).mpr (by decide)⟩

/-!  ## Claims C4 and C10: the fallback LLM  -/

/-- C4 (confirmed): (1) if the primary retry loop succeeds, its result
is returned, the secondary is never invoked and `last_successful_llm`
becomes the primary; (2) if every primary attempt raises and the
secondary retry loop succeeds, the secondary's result is returned and
`last_successful_llm` becomes the configured secondary; (3) if every
attempt on both raises, the propagated exception is the secondary's
final one and the instance state (including `last_successful_llm`) is
unchanged. -/
theorem C4_fallback_precedence {α : Type} (fb : FallbackLLM α)
    (pOp sOp : ℕ → Except String String) :
    (∀ r : String,
      (fb.retry_strategy.execute_with_retry pOp).result = Except.ok r →
      (fb.call pOp sOp).result = Except.ok r ∧
      (fb.call pOp sOp).secondaryCalls = 0 ∧
      (fb.call pOp sOp).post.last_successful_llm = some fb.primary_llm) ∧
    (∀ (pe : ℕ → String) (s : α) (r : String),
      (∀ k, pOp k = Except.error (pe k)) →
      fb.fallback_llm = some s →
      (fb.retry_strategy.execute_with_retry sOp).result = Except.ok r →
      (fb.call pOp sOp).result = Except.ok r ∧
      (fb.call pOp sOp).post.last_successful_llm = some s) ∧
    (∀ (pe se : ℕ → String) (s : α),
      (∀ k, pOp k = Except.error (pe k)) →
      (∀ k, sOp k = Except.error (se k)) →
      fb.fallback_llm = some s →
      (fb.call pOp sOp).result =
        Except.error (se fb.retry_strategy.max_retries) ∧
      (fb.call pOp sOp).post = fb) := by
  refine ⟨?_, ?_, ?_⟩
  · intro r h
    rw [FallbackLLM.call_primary_ok fb pOp sOp r h]
    exact ⟨rfl, rfl, rfl⟩
  · intro pe s r hp hf hs
    have hperr := (fb.retry_strategy.execute_with_retry_all_fail hp).1
    have hcong := fb.retry_strategy.execute_with_retry_congr
      (FallbackLLM.tryFallbackOp_some hf sOp)
    have hs' : (fb.retry_strategy.execute_with_retry
        (FallbackLLM.tryFallbackOp fb sOp)).result = Except.ok r := by
      rw [hcong]; exact hs
    rw [FallbackLLM.call_secondary_ok fb pOp sOp _ r hperr hs']
    exact ⟨rfl, hf⟩
  · intro pe se s hp hsfail hf
    have hperr := (fb.retry_strategy.execute_with_retry_all_fail hp).1
    have hserr := (fb.retry_strategy.execute_with_retry_all_fail hsfail).1
    have hcong := fb.retry_strategy.execute_with_retry_congr
      (FallbackLLM.tryFallbackOp_some hf sOp)
    have hs' : (fb.retry_strategy.execute_with_retry
        (FallbackLLM.tryFallbackOp fb sOp)).result =
        Except.error (se fb.retry_strategy.max_retries) := by
      rw [hcong]; exact hserr
    rw [FallbackLLM.call_both_err fb pOp sOp _ _ hperr hs']
    exact ⟨rfl, rfl⟩

/-- C4 witness: over the adapters "p"/"s" with the default retry
strategy (`max_retries = 3`): an always-succeeding primary short-circuits
the secondary; a failing primary with a succeeding secondary returns the
secondary's answer; two failing adapters surface the secondary's fourth
(final) exception "3" and leave the state unchanged. -/
theorem C4_fallback_precedence_witness :
    ((cexFallback.call alwaysOk alwaysFail).result = Except.ok "answer" ∧
      (cexFallback.call alwaysOk alwaysFail).secondaryCalls = 0 ∧
      (cexFallback.call alwaysOk alwaysFail).post.last_successful_llm =
        some "p") ∧
    ((cexFallback.call alwaysFail alwaysOk).result = Except.ok "answer" ∧
      (cexFallback.call alwaysFail alwaysOk).post.last_successful_llm =
        some "s") ∧
    ((cexFallback.call alwaysFail failWithIndex).result = Except.error "3" ∧
      (cexFallback.call alwaysFail failWithIndex).post = cexFallback) := by
  refine ⟨?_, ?_, ?_⟩
  · have h := (C4_fallback_precedence cexFallback alwaysOk alwaysFail).1
      "answer" rfl
    exact ⟨h.1, h.2.1, by rw [h.2.2]; rfl⟩
  · have h := (C4_fallback_precedence cexFallback alwaysFail alwaysOk).2.1
      (fun _ => "boom") "s" "answer" (fun _ => rfl) rfl rfl
    exact h
  · have h := (C4_fallback_precedence cexFallback alwaysFail failWithIndex).2.2
      (fun _ => "boom") (fun k => toString k) "s" (fun _ => rfl)
      (fun _ => rfl) rfl
    exact h

/-- C10 (confirmed): `last_successful_llm` starts as the primary adapter
at construction; a failed `_call` leaves it (and the whole instance)
unchanged; and after any sequence of `_call` invocations it is defined
and refers to the primary or the configured secondary adapter. -/
theorem C10_last_successful_invariant :
    (∀ (α : Type) (p : α) (f : Option α) (rs : Option RetryStrategy),
      (FallbackLLM.init p f rs).last_successful_llm = some p) ∧
    (∀ (α : Type) (fb : FallbackLLM α)
        (pOp sOp : ℕ → Except String String) (e : String),
      (fb.call pOp sOp).result = Except.error e →
      (fb.call pOp sOp).post.last_successful_llm = fb.last_successful_llm) ∧
    (∀ (α : Type) (p : α) (f : Option α) (rs : Option RetryStrategy)
        (scripts : List FallbackLLM.CallScript),
      ∃ x, (FallbackLLM.runCalls (FallbackLLM.init p f rs)
          scripts).last_successful_llm = some x ∧
        (x = p ∨ some x = f)) := by
  refine ⟨fun α p f rs => rfl, ?_, ?_⟩
  · intro α fb pOp sOp e herr
    rcases FallbackLLM.call_shape fb pOp sOp with ⟨r, hok, _⟩ | ⟨hpost, _⟩
    · rw [herr] at hok; cases hok
    · rw [hpost]
  · intro α p f rs scripts
    exact FallbackLLM.runCalls_last scripts (FallbackLLM.init p f rs)
      ⟨p, rfl, Or.inl rfl⟩

/-- C10 witness: concretely, a freshly built "p"/"s" fallback starts at
"p"; a doubly-failing call leaves the pointer at "p"; and after one call
with a failing primary and succeeding secondary the pointer is a valid
adapter. -/
theorem C10_last_successful_invariant_witness :
    (FallbackLLM.init "p" (some "s") none).last_successful_llm = some "p" ∧
    (cexFallback.call alwaysFail failWithIndex).post.last_successful_llm =
      cexFallback.last_successful_llm ∧
    ∃ x, (FallbackLLM.runCalls (FallbackLLM.init "p" (some "s") none)
        [⟨alwaysFail, alwaysOk⟩]).last_successful_llm = some x ∧
      (x = "p" ∨ some x = some "s") :=
  ⟨C10_last_successful_invariant.1 String "p" (some "s") none,
   C10_last_successful_invariant.2.1 String cexFallback alwaysFail
     failWithIndex "3" rfl,
   C10_last_successful_invariant.2.2 String "p" (some "s") none
     [⟨alwaysFail, alwaysOk⟩]⟩

/-!  ## Claims C6 and C9: the LLM factory  -/

/-- C9 (confirmed): tier selection maps `sensitive` or a task kind in
{"diagnosis", "treatment_planning"} to CLOUD_ACCURATE and every other
task kind (including "summarization" and "extraction") to CLOUD_FAST;
and `("diagnosis", sensitive=True)` with no temperature override
resolves to the CLOUD_ACCURATE profile: provider "openai", model
"gpt-4", default temperature 0.5. -/
theorem C9_tier_selection :
    (∀ (task : String) (sens : Bool),
      select_llm_type task sens =
        if sens ∨ task ∈ ["diagnosis", "treatment_planning"] then
          LLMType.CLOUD_ACCURATE
        else LLMType.CLOUD_FAST) ∧
    create_llm_profile (select_llm_type "diagnosis" true) none =
      ⟨"openai", "gpt-4", 1/2⟩ := by
  constructor
  · intro task sens
    unfold select_llm_type
    split_ifs <;> rfl
  · rfl

/-- C6 (counterexample): in an environment where construction of both
CLOUD_FAST and LOCAL_FAST fails while the hard-coded basic provider
construction would succeed, `get_llm_for_task("chat")` propagates the
local tier's error without ever attempting the basic configuration —
refuting the claimed last-resort attempt. -/
theorem C6_counterexample :
    (get_llm_for_task cexEnv "chat" false none).1 = Except.error "tier down" ∧
    Attempt.basic ∉ (get_llm_for_task cexEnv "chat" false none).2 ∧
    cexEnv.create_by_provider "openai" "gpt-3.5-turbo" (7/10) =
      Except.ok "basic" := by
  refine ⟨rfl, by decide, rfl⟩

/-- C6 (amended): on construction failure of the preferred tier,
`get_llm_for_task` falls back exactly once to the paired local tier
(CLOUD_FAST→LOCAL_FAST, CLOUD_ACCURATE→LOCAL_ACCURATE) and returns that
attempt's outcome as-is: if the local tier also fails, its error
propagates directly, and the hard-coded minimal cloud-fast last resort
is never attempted (it is unreachable, because the preferred tier is
always one of the two cloud tiers). -/
theorem C6_fallback_once (env : CreateEnv) (task : String) (sens : Bool)
    (temp : Option ℚ) (e : String)
    (he : env.create (select_llm_type task sens) temp = Except.error e) :
    (select_llm_type task sens = LLMType.CLOUD_FAST ∨
      select_llm_type task sens = LLMType.CLOUD_ACCURATE) ∧
    (get_llm_for_task env task sens temp).1 =
      env.create (if select_llm_type task sens = LLMType.CLOUD_FAST
        then LLMType.LOCAL_FAST else LLMType.LOCAL_ACCURATE) temp ∧
    (get_llm_for_task env task sens temp).2 =
      [Attempt.tier (select_llm_type task sens),
       Attempt.tier (if select_llm_type task sens = LLMType.CLOUD_FAST
        then LLMType.LOCAL_FAST else LLMType.LOCAL_ACCURATE)] ∧
    Attempt.basic ∉ (get_llm_for_task env task sens temp).2 := by
  have hcloud : select_llm_type task sens = LLMType.CLOUD_FAST ∨
      select_llm_type task sens = LLMType.CLOUD_ACCURATE := by
    unfold select_llm_type
    split_ifs
    · right; rfl
    · left; rfl
    · left; rfl
  have hmain : (get_llm_for_task env task sens temp).1 =
      env.create (if select_llm_type task sens = LLMType.CLOUD_FAST
        then LLMType.LOCAL_FAST else LLMType.LOCAL_ACCURATE) temp ∧
      (get_llm_for_task env task sens temp).2 =
      [Attempt.tier (select_llm_type task sens),
       Attempt.tier (if select_llm_type task sens = LLMType.CLOUD_FAST
        then LLMType.LOCAL_FAST else LLMType.LOCAL_ACCURATE)] := by
    unfold get_llm_for_task
    dsimp only
    rw [he, if_pos hcloud]
    cases hft : env.create (if select_llm_type task sens = LLMType.CLOUD_FAST
        then LLMType.LOCAL_FAST else LLMType.LOCAL_ACCURATE) temp with
    | ok r => exact ⟨rfl, rfl⟩
    | error e2 => exact ⟨rfl, rfl⟩
  refine ⟨hcloud, hmain.1, hmain.2, ?_⟩
  rw [hmain.2]
  simp

/-- C6 witness: the amended behaviour instantiated in the doubly-failing
environment — the result is the local tier's outcome and the basic
configuration is never attempted. -/
theorem C6_fallback_once_witness :
    (select_llm_type "chat" false = LLMType.CLOUD_FAST ∨
      select_llm_type "chat" false = LLMType.CLOUD_ACCURATE) ∧
    (get_llm_for_task cexEnv "chat" false none).1 =
      cexEnv.create (if select_llm_type "chat" false = LLMType.CLOUD_FAST
        then LLMType.LOCAL_FAST else LLMType.LOCAL_ACCURATE) none ∧
    (get_llm_for_task cexEnv "chat" false none).2 =
      [Attempt.tier (select_llm_type "chat" false),
       Attempt.tier (if select_llm_type "chat" false = LLMType.CLOUD_FAST
        then LLMType.LOCAL_FAST else LLMType.LOCAL_ACCURATE)] ∧
    Attempt.basic ∉ (get_llm_for_task cexEnv "chat" false none).2 :=
  C6_fallback_once cexEnv "chat" false none "tier down" rfl

end HealthcareAigent
